import Mathlib

/-!
Verification development for the timeday frontend core: the identifier
codec (`IdUtils`, src/utils/IdUtils.js), the user-record validator
(`UserUtils`, src/utils/UserUtils.js) and the cookie-backed multi-account
session store (`CookieUtils`, src/main/Cookie.js).

The cookie substrate (`document.cookie`) is modelled as an association
list from cookie names to values; `setCookie` updates in place or appends
(matching browser enumeration order), `deleteCookie` removes the entry,
and expiry days are ignored (TTL is enforced by the substrate, not by the
code under study).  JavaScript strings are Lean `String`s; a value that
may be `null`/`undefined`/non-string is an `Option String`.  JavaScript
truthiness on strings is `s ≠ ""`.
-/

/-- Characters of a string; `(a ++ b).data = a.data ++ b.data` is proved below. -/
theorem sdata_append (a b : String) : (a ++ b).data = a.data ++ b.data := by
  cases a; cases b; rfl

theorem sext {a b : String} : a = b ↔ a.data = b.data := by
  cases a; cases b; exact ⟨fun h => by injection h, fun h => congrArg String.mk h⟩

/-- Models JS `s.startsWith(p)`. -/
def jsStartsWith (s p : String) : Bool := p.data.isPrefixOf s.data

/-- Models JS `s.substring(a, b)` for `a ≤ b` within bounds. -/
def jsSubstring (s : String) (a b : Nat) : String := String.mk ((s.data.drop a).take (b - a))

/-- The character for a decimal digit `d < 10`. -/
def digitChar (d : Nat) : Char := Char.ofNat (48 + d)

/-- Models JS `String(n).padStart(2, '0')` for `n < 100` (all call sites
pass such `n`: checksums are reduced mod 100, partition values are ≤ 99). -/
def pad2 (n : Nat) : String := String.mk [digitChar (n / 10 % 10), digitChar (n % 10)]

/-- Models JS `String(n).padStart(4, '0')` for `n < 10000`. -/
def pad4 (n : Nat) : String :=
  String.mk [digitChar (n / 1000 % 10), digitChar (n / 100 % 10),
             digitChar (n / 10 % 10), digitChar (n % 10)]

/-- Models the regex character class `\d`. -/
def isDigitCh (c : Char) : Bool := decide (48 ≤ c.toNat) && decide (c.toNat ≤ 57)

namespace IdUtils

/-- `IdUtils.WEIGHTS` from the source. -/
def WEIGHTS : List Nat := [3, 7, 11, 13]

/-- `.split('').map(Number)` on a digit string: character `c` becomes its digit value. -/
def digitsOf (s : String) : List Nat := s.data.map (fun c => c.toNat - 48)

/-- The Luhn-style accumulator of `IdUtils.calculateChecksum`: the source walks
`i` from `allDigits.length - 1` down to `0` and doubles (reducing by 9 above 9)
when `(allDigits.length - i) % 2 === 0`. -/
def luhnSumOf (ds : List Nat) : Nat :=
  (List.range ds.length).reverse.foldl
    (fun acc i =>
      let d := ds.getD i 0
      acc + (if (ds.length - i) % 2 = 0 then (if 2 * d > 9 then 2 * d - 9 else 2 * d) else d))
    0

/-- The weighted accumulator: `allDigits[i] * WEIGHTS[i % 4]`, summed left to right. -/
def weightSumOf (ds : List Nat) : Nat :=
  (List.range ds.length).foldl (fun acc i => acc + ds.getD i 0 * WEIGHTS.getD (i % 4) 0) 0

/-- The XOR accumulator: running exclusive-or over all digits. -/
def xorAll (ds : List Nat) : Nat := ds.foldl (fun acc d => acc ^^^ d) 0

/-- The numeric checksum `(luhnSum + weightSum + xorResult) % 100`. -/
def checksumVal (ds : List Nat) : Nat := (luhnSumOf ds + weightSumOf ds + xorAll ds) % 100

/-- `IdUtils.calculateChecksum(prefix, randomDigits)`: digits of the
concatenation, combined accumulators mod 100, zero-padded to two digits. -/
def calculateChecksum (pr rd : String) : String := pad2 (checksumVal (digitsOf (pr ++ rd)))

/-- `userId.match(/^(\d{2})(\d{2})-(\d{4})$/)`: on success the three capture
groups (partition, provided checksum, random digits). -/
def matchIdPattern (s : String) : Option (String × String × String) :=
  match s.data with
  | [a, b, c, d, e, f, g, h, i] =>
    if isDigitCh a && isDigitCh b && isDigitCh c && isDigitCh d && decide (e = '-') &&
       isDigitCh f && isDigitCh g && isDigitCh h && isDigitCh i then
      some (String.mk [a, b], String.mk [c, d], String.mk [f, g, h, i])
    else none
  | _ => none

/-- `IdUtils.validateUserId(userId)`; `none` models a `null`/`undefined`/non-string
argument, which the source rejects up front, as it does the falsy empty string. -/
def validateUserId : Option String → Bool
  | none => false
  | some s =>
    if s = "" then false
    else
      match matchIdPattern s with
      | none => false
      | some (pr, providedChecksum, rd) => decide (providedChecksum = calculateChecksum pr rd)

/-- `IdUtils.isAdminId(userId)`: valid and the string starts with the admin
partition `"00"`. -/
def isAdminId (userId : Option String) : Bool :=
  if validateUserId userId then
    match userId with
    | some s => jsStartsWith s "00"
    | none => false
  else false

/-- `IdUtils.getPrefix(userId)` from the source (name adjusted): `null` for an
invalid id, otherwise `userId.substring(0, 2)`. -/
def getPrefixPart (userId : Option String) : Option String :=
  if validateUserId userId then
    match userId with
    | some s => some (jsSubstring s 0 2)
    | none => none
  else none

/-- `IdUtils.getRandomDigits(userId)`: `null` for an invalid id, otherwise
`userId.substring(5, 9)`. -/
def getRandomDigits (userId : Option String) : Option String :=
  if validateUserId userId then
    match userId with
    | some s => some (jsSubstring s 5 9)
    | none => none
  else none

/-- `IdUtils.generateUserId(isAdmin)`.  The two randomness outcomes are
explicit parameters: `p` models `Math.floor(Math.random() * 99) + 1 ∈ [1, 99]`
(used only when `isAdmin` is false) and `r` models
`Math.floor(Math.random() * 10000) ∈ [0, 9999]`. -/
def generateUserId (isAdminFlag : Bool) (p r : Nat) : String :=
  let pfx := if isAdminFlag then "00" else pad2 p
  let randomDigits := pad4 r
  let checksum := calculateChecksum pfx randomDigits
  pfx ++ checksum ++ "-" ++ randomDigits

end IdUtils

/-! Reference checksum, written from the specification's words (§4.1), to be
compared with the source's `IdUtils.calculateChecksum`. -/

namespace ChecksumSpec

/-- Modelled from the spec: doubling step — "if a doubled value exceeds 9, subtract 9". -/
def luhnDouble (d : Nat) : Nat := if 2 * d > 9 then 2 * d - 9 else 2 * d

/-- Modelled from the spec: "walking right-to-left, double every second digit
(positions counted from the right, 1-indexed)"; position `j + 1` from the right
is digit `d[n - 1 - j]`. -/
def luhnSumSpec (ds : List Nat) : Nat :=
  ((List.range ds.length).map
    (fun j =>
      let d := ds.getD (ds.length - 1 - j) 0
      if (j + 1) % 2 = 0 then luhnDouble d else d)).sum

/-- Modelled from the spec: "multiply `d[i]` by `weights[i mod 4]` where
`weights = [3,7,11,13]`, left-to-right; sum". -/
def weightSumSpec (ds : List Nat) : Nat :=
  (ds.enum.map (fun p => p.2 * IdUtils.WEIGHTS.getD (p.1 % 4) 0)).sum

/-- Modelled from the spec: "running exclusive-or of all six digits". -/
def xorSpec (ds : List Nat) : Nat := ds.foldl (fun acc d => acc ^^^ d) 0

/-- Modelled from the spec: "Result = `(luhnSum + weightSum + xorResult) mod 100`". -/
def checksumSpecVal (ds : List Nat) : Nat :=
  (luhnSumSpec ds + weightSumSpec ds + xorSpec ds) % 100

end ChecksumSpec

/-- A user record as handled by `UserUtils.validateUserData` (part_006).
`none` fields model absent/`undefined` (falsy) values; `isAdmin` is an
`Option Bool` because `userData.isAdmin !== isAdminFromId` is a strict
comparison in which an `undefined` flag never equals a boolean. -/
structure JsUser where
  id : Option String
  username : Option String
  email : Option String
  isAdmin : Option Bool

/-- JS truthiness for an optional string field: present and nonempty. -/
def truthyOptStr : Option String → Bool
  | none => false
  | some s => !(s = "")

namespace UserUtils

/-- `UserUtils.validateUserData(userData)`: requires truthy `id`, `username`,
`email`, a valid id, and `userData.isAdmin === IdUtils.isAdminId(userData.id)`. -/
def validateUserData : Option JsUser → Bool
  | none => false
  | some u =>
    if !truthyOptStr u.id then false
    else if !truthyOptStr u.username then false
    else if !truthyOptStr u.email then false
    else if !IdUtils.validateUserId u.id then false
    else u.isAdmin == some (IdUtils.isAdminId u.id)

end UserUtils

/-! ## The cookie substrate and `CookieUtils` (src/main/Cookie.js)

`document.cookie` is an association list of name/value pairs.  `setCookie`
overwrites in place when the name exists (browsers keep the original
enumeration position) and appends otherwise; `deleteCookie` (expiry in the
past) removes the pair; `getCookie` returns the first value for the name,
`null` when absent.  TTL days are dropped: expiry is the substrate's job. -/

abbrev Store := List (String × String)

namespace CookieUtils

/-- `CookieUtils.getCookie(name)`. -/
def rawGet : Store → String → Option String
  | [], _ => none
  | (k, v) :: rest, name => if k = name then some v else rawGet rest name

/-- `CookieUtils.setCookie(name, value, days)` (days dropped). -/
def rawSet : Store → String → String → Store
  | [], name, value => [(name, value)]
  | (k, v) :: rest, name, value =>
    if k = name then (name, value) :: rest else (k, v) :: rawSet rest name value

/-- `CookieUtils.deleteCookie(name)`. -/
def rawDelete : Store → String → Store
  | [], _ => []
  | (k, v) :: rest, name =>
    if k = name then rawDelete rest name else (k, v) :: rawDelete rest name

/-- The cookie name `userToken_${username}`. -/
def tokenKey (u : String) : String := "userToken_" ++ u

/-- The cookie name `userData_${username}`. -/
def dataKey (u : String) : String := "userData_" ++ u

/-- The cookie name `userAvatar_${username}`. -/
def avatarKey (u : String) : String := "userAvatar_" ++ u

/-- The cookie name `userAvatar_${username}_chunks`. -/
def avatarChunksKey (u : String) : String := "userAvatar_" ++ u ++ "_chunks"

/-- The cookie name `userAvatar_${username}_chunk_${i}`. -/
def avatarChunkKey (u : String) (i : Nat) : String :=
  "userAvatar_" ++ u ++ "_chunk_" ++ toString i

/-- `CookieUtils.getUserToken(username)`. -/
def getUserToken (st : Store) (u : String) : Option String := rawGet st (tokenKey u)

/-- `CookieUtils.getActiveUser()`. -/
def getActiveUser (st : Store) : Option String := rawGet st "activeUser"

/-- Decimal value of a digit-character list. -/
def digitsToNat (l : List Char) : Nat := l.foldl (fun a c => a * 10 + (c.toNat - 48)) 0

/-- Models JS `parseInt(s)` as used on stored chunk counts: the leading digit
run, `none` for `NaN` (no leading digits; sign/whitespace/hex forms are not
produced by the writer and are not modelled). -/
def jsParseInt (s : String) : Option Nat :=
  let ds := s.data.takeWhile (fun c => isDigitCh c)
  if ds.isEmpty then none else some (digitsToNat ds)

/-- The chunk-reading loop of `getAvatarChunks`: read each listed index; a
missing or empty (falsy) chunk aborts with `null`, otherwise chunks are
concatenated in index order. -/
def collectChunks (st : Store) (u : String) : List Nat → Option String
  | [] => some ""
  | i :: is =>
    match rawGet st (avatarChunkKey u i) with
    | none => none
    | some c => if c = "" then none else (collectChunks st u is).map (fun rest => c ++ rest)

/-- `CookieUtils.getAvatarChunks(username)`: `parseInt(getCookie(..) || '0')`;
a parsed count of `0` returns `null`; a `NaN` count falls through the
`=== 0` guard and the loop body never runs, returning the empty string. -/
def getAvatarChunks (st : Store) (u : String) : Option String :=
  let raw := (rawGet st (avatarChunksKey u)).getD "0"
  match jsParseInt raw with
  | none => some ""
  | some n => if n = 0 then none else collectChunks st u (List.range n)

/-- `CookieUtils.getUserAvatar(username)`: a truthy non-marker base value is
returned directly; the marker delegates to chunk reassembly; anything else
(absent or empty) is `null`. -/
def getUserAvatar (st : Store) (u : String) : Option String :=
  match rawGet st (avatarKey u) with
  | some a =>
    if a ≠ "" ∧ a ≠ "chunked" then some a
    else if a = "chunked" then getAvatarChunks st u
    else none
  | none => none

/-- The slicing loop of `setAvatarChunks`: `for (i = 0; i < len; i += 3000)
chunks.push(data.slice(i, i + 3000))`. -/
def chunkSplit (l : List Char) : List (List Char) :=
  if h : l = [] then [] else l.take 3000 :: chunkSplit (l.drop 3000)
termination_by l.length
decreasing_by
  have hpos : 0 < l.length := List.length_pos.mpr h
  simp [List.length_drop]
  omega

/-- The chunk-writing loop of `setAvatarChunks` (`chunks.forEach` with index). -/
def writeChunks (u : String) : Store → Nat → List String → Store
  | st, _, [] => st
  | st, i, c :: cs => writeChunks u (rawSet st (avatarChunkKey u i) c) (i + 1) cs

/-- `CookieUtils.setAvatarChunks(username, avatarData, days)`: marker, count,
then each chunk in order. -/
def setAvatarChunks (st : Store) (u : String) (avatarData : String) : Store :=
  let chunks := (chunkSplit avatarData.data).map String.mk
  let st1 := rawSet st (avatarKey u) "chunked"
  let st2 := rawSet st1 (avatarChunksKey u) (toString chunks.length)
  writeChunks u st2 0 chunks

/-- `CookieUtils.setUserAvatar(username, avatarData, days)`: chunk when longer
than 3500 characters, else store directly (the 3000-character branch only logs
a warning; the catch-branch fallback to `'default'` is unreachable here since
the modelled substrate writes cannot throw). -/
def setUserAvatar (st : Store) (u : String) (avatarData : String) : Store :=
  if avatarData.length > 3500 then setAvatarChunks st u avatarData
  else rawSet st (avatarKey u) avatarData

/-- `CookieUtils.deleteUserAvatar(username)`: the base cookie plus the bounded
chunk scan `i = 0 .. 9`. -/
def deleteUserAvatar (st : Store) (u : String) : Store :=
  (List.range 10).foldl (fun s i => rawDelete s (avatarChunkKey u i)) (rawDelete st (avatarKey u))

/-- `CookieUtils.deleteUserToken(username)`: token, data, then avatar cleanup. -/
def deleteUserToken (st : Store) (u : String) : Store :=
  deleteUserAvatar (rawDelete (rawDelete st (tokenKey u)) (dataKey u)) u

/-- The twelve cookie names `deleteUserToken(u)` removes. -/
def delKeysList (u : String) : List String :=
  tokenKey u :: dataKey u :: avatarKey u :: (List.range 10).map (avatarChunkKey u)

/-- The object `getUserData` returns: the stored JSON blob (kept opaque — the
stored value is a `JSON.stringify` output, whose parse is modelled as total)
plus the merged `userAvatar` field when the avatar is truthy and not the
`'default'` sentinel. -/
structure UserDataObj where
  blob : String
  userAvatar : Option String
deriving DecidableEq

/-- `CookieUtils.getUserData(username)`: `null` when the data cookie is
absent or falsy; otherwise the parsed blob with the avatar merged in. -/
def getUserData (st : Store) (u : String) : Option UserDataObj :=
  match rawGet st (dataKey u) with
  | none => none
  | some s =>
    if s = "" then none
    else
      some { blob := s
             userAvatar :=
               match getUserAvatar st u with
               | some a => if a = "" ∨ a = "default" then none else some a
               | none => none }

/-- One element of `getAllUserTokens`' result. -/
structure TokenEntry where
  username : String
  token : String
  userData : UserDataObj
deriving DecidableEq

/-- The username encoded in a token cookie name:
`trimmed.split('=')[0].replace('userToken_', '')`, under the `startsWith`
guard this drops the 10-character `userToken_` head. -/
def tokenKeyUser (k : String) : String := String.mk (k.data.drop 10)

/-- `CookieUtils.getAllUserTokens()`: scan the cookie list for `userToken_`
names, re-read token and data through the getters, and keep entries whose
token and data are both truthy. -/
def getAllUserTokens (st : Store) : List TokenEntry :=
  st.filterMap (fun kv =>
    if jsStartsWith kv.1 "userToken_" then
      let username := tokenKeyUser kv.1
      match getUserToken st username, getUserData st username with
      | some t, some d => if t = "" then none else some ⟨username, t, d⟩
      | some _, none => none
      | none, _ => none
    else none)

/-- One element of `batchValidateTokens`' result list. -/
structure ValidationResult where
  username : String
  isValid : Bool
  userData : Option UserDataObj
  error : Option String
deriving DecidableEq

/-- One iteration of the `batchValidateTokens` loop: push the result entry;
on `false` or a thrown error also delete that account's cookies. -/
def batchStep (f : String → String → Except String Bool)
    (acc : Store × List ValidationResult) (e : TokenEntry) : Store × List ValidationResult :=
  match f e.username e.token with
  | Except.ok isValid =>
    let acc1 : Store × List ValidationResult :=
      (acc.1, acc.2 ++ [⟨e.username, isValid, if isValid then some e.userData else none, none⟩])
    if isValid then acc1 else (deleteUserToken acc1.1 e.username, acc1.2)
  | Except.error msg =>
    (deleteUserToken acc.1 e.username, acc.2 ++ [⟨e.username, false, none, some msg⟩])

/-- `CookieUtils.batchValidateTokens(validateTokenFn)`: the remote validator
is a caller-supplied function modelled as `Except String Bool` (`error` is a
thrown exception's message).  Accounts are processed strictly sequentially in
enumeration order; a `false` or thrown validation deletes that account's
cookies before the next account is processed.  Returns the final substrate
and the result list. -/
def batchValidateTokens (st : Store) (f : String → String → Except String Bool) :
    Store × List ValidationResult :=
  (getAllUserTokens st).foldl (batchStep f) (st, [])

/-- The per-entry outcome of `batchValidateTokens`, as a function of the
validator alone. -/
def expectedResult (f : String → String → Except String Bool) (e : TokenEntry) :
    ValidationResult :=
  match f e.username e.token with
  | Except.ok v => ⟨e.username, v, if v then some e.userData else none, none⟩
  | Except.error m => ⟨e.username, false, none, some m⟩

/-- Whether the validator fails (returns `false` or throws) on an entry. -/
def isFailed (f : String → String → Except String Bool) (e : TokenEntry) : Bool :=
  match f e.username e.token with
  | Except.ok true => false
  | _ => true

/-- The store effect of one `batchValidateTokens` step. -/
def storeStep (f : String → String → Except String Bool) (st : Store) (e : TokenEntry) :
    Store :=
  match f e.username e.token with
  | Except.ok true => st
  | _ => deleteUserToken st e.username

/-- Escaping step of `JSON.stringify` on a string: quote and backslash get a
backslash (control characters, which usernames are not expected to contain,
are not modelled). -/
def escChars : List Char → List Char
  | [] => []
  | c :: cs => if c = '"' ∨ c = '\\' then '\\' :: c :: escChars cs else c :: escChars cs

/-- `JSON.stringify` of a string array, item by item. -/
def jsonItems : List String → List Char
  | [] => [']']
  | [s] => '"' :: (escChars s.data ++ ['"', ']'])
  | s :: ss => '"' :: (escChars s.data ++ ['"', ','] ++ jsonItems ss)

/-- `JSON.stringify` of a string array. -/
def jsonEncodeStrings (l : List String) : String := String.mk ('[' :: jsonItems l)

/-- Scan a quoted string body up to the closing quote; a backslash takes the
next character verbatim (enough to invert `escChars`). -/
def parseQuotedBody : List Char → Option (List Char × List Char)
  | [] => none
  | c :: rest =>
    if c = '\\' then
      match rest with
      | [] => none
      | c2 :: rest2 => (parseQuotedBody rest2).map (fun p => (c2 :: p.1, p.2))
    else if c = '"' then some ([], rest)
    else (parseQuotedBody rest).map (fun p => (c :: p.1, p.2))

/-- Item-list parser for a JSON string array, fuelled for structural
termination (the fuel is at least the character count, which bounds the item
count). -/
def parseItemsFuel : Nat → List Char → Option (List String)
  | 0, _ => none
  | fuel + 1, l =>
    match l with
    | ']' :: [] => some []
    | '"' :: rest =>
      (match parseQuotedBody rest with
       | none => none
       | some (s, rest1) =>
         match rest1 with
         | ',' :: rest2 => (parseItemsFuel fuel rest2).map (fun ss => String.mk s :: ss)
         | ']' :: [] => some [String.mk s]
         | _ => none)
    | _ => none

/-- Models `JSON.parse` on the roster cookie: succeeds on arrays of strings.
A top-level non-array JSON value is treated as a failure (on such a value the
source would throw in the subsequent `.filter` call). -/
def jsonParseStrings (s : String) : Option (List String) :=
  match s.data with
  | '[' :: rest => parseItemsFuel (rest.length + 1) rest
  | _ => none

/-- `CookieUtils.getLastUsers()`: parse the roster cookie, `[]` when absent,
falsy, or unparseable. -/
def getLastUsers (st : Store) : List String :=
  match rawGet st "lastUsers" with
  | none => []
  | some s => if s = "" then [] else (jsonParseStrings s).getD []

/-- `CookieUtils.updateLastUsers(username)`: drop the username, prepend it,
cap at 2, store back. -/
def updateLastUsers (st : Store) (username : String) : Store :=
  let lastUsers := getLastUsers st
  let filtered := lastUsers.filter (fun user => user ≠ username)
  let updated := (username :: filtered).take 2
  rawSet st "lastUsers" (jsonEncodeStrings updated)

end CookieUtils

/-! ### Basic digit/character lemmas -/

theorem isDigitCh_digitChar {d : Nat} (h : d < 10) : isDigitCh (digitChar d) = true := by
  interval_cases d <;> decide

theorem toNat_digitChar {d : Nat} (h : d < 10) : (digitChar d).toNat - 48 = d := by
  interval_cases d <;> decide

theorem digitChar_eq_zero_iff {d : Nat} (h : d < 10) : digitChar d = '0' ↔ d = 0 := by
  interval_cases d <;> decide

theorem pattern_roundtrip (x y z : Nat) :
    IdUtils.matchIdPattern (pad2 x ++ pad2 y ++ "-" ++ pad4 z) =
      some (pad2 x, pad2 y, pad4 z) := by
  have hdata : (pad2 x ++ pad2 y ++ "-" ++ pad4 z).data =
      [digitChar (x / 10 % 10), digitChar (x % 10),
       digitChar (y / 10 % 10), digitChar (y % 10), '-',
       digitChar (z / 1000 % 10), digitChar (z / 100 % 10),
       digitChar (z / 10 % 10), digitChar (z % 10)] := by
    simp [sdata_append, pad2, pad4]
  unfold IdUtils.matchIdPattern
  rw [hdata]
  simp [isDigitCh_digitChar (Nat.mod_lt _ (by norm_num)), pad2, pad4]

theorem smk_data (l : List Char) : (String.mk l).data = l := rfl

theorem validate_composed (x y : Nat) :
    IdUtils.validateUserId
      (some (pad2 x ++ IdUtils.calculateChecksum (pad2 x) (pad4 y) ++ "-" ++ pad4 y)) = true := by
  have hck : IdUtils.calculateChecksum (pad2 x) (pad4 y) =
      pad2 (IdUtils.checksumVal (IdUtils.digitsOf (pad2 x ++ pad4 y))) := rfl
  have hne : pad2 x ++ IdUtils.calculateChecksum (pad2 x) (pad4 y) ++ "-" ++ pad4 y ≠ "" := by
    intro h
    rw [sext] at h
    simp [sdata_append, pad2, pad4, hck] at h
  simp only [IdUtils.validateUserId]
  rw [if_neg hne, hck, pattern_roundtrip]
  simp [IdUtils.calculateChecksum]

theorem jsStartsWith00_two (s : String) (c1 c2 : Char) (rest : List Char)
    (hd : s.data = c1 :: c2 :: rest) :
    jsStartsWith s "00" = (('0' == c1) && ('0' == c2)) := by
  have h00 : ("00" : String).data = ['0', '0'] := rfl
  unfold jsStartsWith
  rw [h00, hd]
  simp [List.isPrefixOf]

theorem isAdminId_some (s : String) :
    IdUtils.isAdminId (some s) =
      if IdUtils.validateUserId (some s) then jsStartsWith s "00" else false := rfl

/-- C1: for every admin flag and every outcome of the randomness source
(`p ∈ [1,99]` models the partition draw, `r < 10000` the random digits draw),
the generated identifier validates, an admin-generated id is recognised as
admin, and a user-generated id is never recognised as admin. -/
theorem generateUserId_validates_and_roles (b : Bool) (p r : Nat)
    (hp1 : 1 ≤ p) (hp2 : p ≤ 99) (hr : r < 10000) :
    IdUtils.validateUserId (some (IdUtils.generateUserId b p r)) = true ∧
    IdUtils.isAdminId (some (IdUtils.generateUserId true p r)) = true ∧
    IdUtils.isAdminId (some (IdUtils.generateUserId false p r)) = false := by
  have h00 : ("00" : String) = pad2 0 := by decide
  have hgenT : IdUtils.generateUserId true p r =
      "00" ++ IdUtils.calculateChecksum "00" (pad4 r) ++ "-" ++ pad4 r := rfl
  have hgenF : IdUtils.generateUserId false p r =
      pad2 p ++ IdUtils.calculateChecksum (pad2 p) (pad4 r) ++ "-" ++ pad4 r := rfl
  have hvalT : IdUtils.validateUserId (some (IdUtils.generateUserId true p r)) = true := by
    rw [hgenT, h00]; exact validate_composed 0 r
  have hvalF : IdUtils.validateUserId (some (IdUtils.generateUserId false p r)) = true := by
    rw [hgenF]; exact validate_composed p r
  refine ⟨by cases b with | true => exact hvalT | false => exact hvalF, ?_, ?_⟩
  · rw [isAdminId_some, hvalT, if_pos rfl]
    have hd : (IdUtils.generateUserId true p r).data =
        '0' :: '0' :: ((IdUtils.calculateChecksum "00" (pad4 r)).data ++ '-' :: (pad4 r).data) := by
      rw [hgenT]
      simp [sdata_append, show ("00" : String).data = ['0', '0'] from rfl,
            show ("-" : String).data = ['-'] from rfl]
    rw [jsStartsWith00_two _ _ _ _ hd]
    decide
  · rw [isAdminId_some, hvalF, if_pos rfl]
    have hd : (IdUtils.generateUserId false p r).data =
        digitChar (p / 10 % 10) :: digitChar (p % 10) ::
          ((IdUtils.calculateChecksum (pad2 p) (pad4 r)).data ++ '-' :: (pad4 r).data) := by
      rw [hgenF]
      simp [sdata_append, pad2, show ("-" : String).data = ['-'] from rfl]
    rw [jsStartsWith00_two _ _ _ _ hd]
    cases h1 : (('0' : Char) == digitChar (p / 10 % 10)) with
    | false => simp [h1]
    | true =>
      cases h2 : (('0' : Char) == digitChar (p % 10)) with
      | false => simp [h1, h2]
      | true =>
        exfalso
        have e1 := (digitChar_eq_zero_iff (Nat.mod_lt _ (by norm_num))).mp (eq_of_beq h1).symm
        have e2 := (digitChar_eq_zero_iff (Nat.mod_lt _ (by norm_num))).mp (eq_of_beq h2).symm
        omega

/-- C1 witness: a concrete instantiation (admin flag, partition draw 1,
random draw 0). -/
theorem generateUserId_validates_and_roles_witness :
    IdUtils.validateUserId (some (IdUtils.generateUserId true 1 0)) = true ∧
    IdUtils.isAdminId (some (IdUtils.generateUserId true 1 0)) = true ∧
    IdUtils.isAdminId (some (IdUtils.generateUserId false 1 0)) = false :=
  generateUserId_validates_and_roles true 1 0 (by decide) (by decide) (by decide)

/-- C2: on every 2-digit partition string and 4-digit random string, the
source's `calculateChecksum` agrees with the specification's reference
definition (Luhn-style doubling from the right, weights `[3,7,11,13]`
left-to-right, XOR of all digits, summed mod 100 and zero-padded). -/
theorem calculateChecksum_matches_reference (a b c d e f : Nat)
    (ha : a < 10) (hb : b < 10) (hc : c < 10) (hd : d < 10) (he : e < 10) (hf : f < 10) :
    IdUtils.calculateChecksum (String.mk [digitChar a, digitChar b])
        (String.mk [digitChar c, digitChar d, digitChar e, digitChar f]) =
      pad2 (ChecksumSpec.checksumSpecVal [a, b, c, d, e, f]) := by
  have hdig : IdUtils.digitsOf
      (String.mk [digitChar a, digitChar b] ++
        String.mk [digitChar c, digitChar d, digitChar e, digitChar f]) = [a, b, c, d, e, f] := by
    simp [IdUtils.digitsOf, sdata_append, smk_data,
          toNat_digitChar ha, toNat_digitChar hb, toNat_digitChar hc,
          toNat_digitChar hd, toNat_digitChar he, toNat_digitChar hf]
  unfold IdUtils.calculateChecksum
  rw [hdig]
  congr 1
  have hr6 : List.range 6 = [0, 1, 2, 3, 4, 5] := by decide
  unfold IdUtils.checksumVal ChecksumSpec.checksumSpecVal
  unfold IdUtils.luhnSumOf IdUtils.weightSumOf IdUtils.xorAll
  unfold ChecksumSpec.luhnSumSpec ChecksumSpec.weightSumSpec ChecksumSpec.xorSpec
  unfold ChecksumSpec.luhnDouble
  simp only [List.length_cons, List.length_nil, hr6]
  simp only [List.reverse_cons, List.reverse_nil, List.nil_append, List.cons_append,
             List.foldl_cons, List.foldl_nil, List.map_cons, List.map_nil, List.sum_cons,
             List.sum_nil, List.enum, List.enumFrom, List.getD, List.get?, Option.getD,
             IdUtils.WEIGHTS]
  norm_num
  split_ifs <;> omega

/-- C2 witness: concrete digits `01` / `2345`. -/
theorem calculateChecksum_matches_reference_witness :
    IdUtils.calculateChecksum (String.mk [digitChar 0, digitChar 1])
        (String.mk [digitChar 2, digitChar 3, digitChar 4, digitChar 5]) =
      pad2 (ChecksumSpec.checksumSpecVal [0, 1, 2, 3, 4, 5]) :=
  calculateChecksum_matches_reference 0 1 2 3 4 5
    (by decide) (by decide) (by decide) (by decide) (by decide) (by decide)

/-- C3: `validateUserData` rejects any record whose id fails validation or
whose stored `isAdmin` flag differs from the identifier-derived role, and it
accepts only records with truthy id/username/email, a valid id, and a stored
flag equal to the derived role. -/
theorem validateUserData_role_consistency (u : JsUser) :
    ((IdUtils.validateUserId u.id = false ∨ u.isAdmin ≠ some (IdUtils.isAdminId u.id)) →
      UserUtils.validateUserData (some u) = false) ∧
    (UserUtils.validateUserData (some u) = true →
      truthyOptStr u.id = true ∧ truthyOptStr u.username = true ∧
      truthyOptStr u.email = true ∧ IdUtils.validateUserId u.id = true ∧
      u.isAdmin = some (IdUtils.isAdminId u.id)) := by
  refine ⟨?_, ?_⟩ <;> simp only [UserUtils.validateUserData]
  · intro h
    split_ifs with h1 h2 h3 h4 <;> try rfl
    rcases h with hv | hm
    · simp [hv] at h4
    · simp only [beq_eq_false_iff_ne, ne_eq]
      simpa using hm
  · intro h
    split_ifs at h with h1 h2 h3 h4 <;>
      first
      | exact absurd h (by decide)
      | exact ⟨by simpa using h1, by simpa using h2, by simpa using h3,
               by simpa using h4, eq_of_beq h⟩

/-- C3 witness: a record with a valid admin identifier but a stored
`isAdmin: false` flag is rejected. -/
theorem validateUserData_role_consistency_witness :
    UserUtils.validateUserData
      (some ⟨some "0000-0000", some "alice", some "a@b.c", some false⟩) = false :=
  (validateUserData_role_consistency
      ⟨some "0000-0000", some "alice", some "a@b.c", some false⟩).1
    (Or.inr (by decide))

/-- C9: an identifier that fails validation is never treated as an
administrator identifier, and both extraction helpers return `null` on it
(totality of the embedded functions reflects that none of them throws). -/
theorem invalid_id_rejected (id : Option String) (h : IdUtils.validateUserId id = false) :
    IdUtils.isAdminId id = false ∧ IdUtils.getPrefixPart id = none ∧
    IdUtils.getRandomDigits id = none := by
  unfold IdUtils.isAdminId IdUtils.getPrefixPart IdUtils.getRandomDigits
  rw [h]
  simp

/-- C9 witness: a malformed nine-character string. -/
theorem invalid_id_rejected_witness :
    IdUtils.validateUserId (some "not-an-id") = false ∧
    IdUtils.isAdminId (some "not-an-id") = false ∧
    IdUtils.getPrefixPart (some "not-an-id") = none ∧
    IdUtils.getRandomDigits (some "not-an-id") = none :=
  ⟨by decide, invalid_id_rejected (some "not-an-id") (by decide)⟩

/-! ### Substrate lemmas -/

theorem rawGet_rawSet (st : Store) (k v k' : String) :
    CookieUtils.rawGet (CookieUtils.rawSet st k v) k' =
      if k = k' then some v else CookieUtils.rawGet st k' := by
  induction st with
  | nil => simp [CookieUtils.rawSet, CookieUtils.rawGet]
  | cons kv rest ih =>
    obtain ⟨k0, v0⟩ := kv
    by_cases h0 : k0 = k
    · subst h0
      simp only [CookieUtils.rawSet, if_pos rfl]
      by_cases h1 : k0 = k'
      · subst h1; simp [CookieUtils.rawGet]
      · simp [CookieUtils.rawGet, h1]
    · simp only [CookieUtils.rawSet, if_neg h0]
      by_cases h1 : k0 = k'
      · subst h1
        have hkk : k ≠ k0 := fun h => h0 h.symm
        simp [CookieUtils.rawGet, if_neg hkk]
      · simp [CookieUtils.rawGet, h1, ih]

theorem rawGet_rawDelete (st : Store) (k k' : String) :
    CookieUtils.rawGet (CookieUtils.rawDelete st k) k' =
      if k = k' then none else CookieUtils.rawGet st k' := by
  induction st with
  | nil => simp [CookieUtils.rawDelete, CookieUtils.rawGet]
  | cons kv rest ih =>
    obtain ⟨k0, v0⟩ := kv
    by_cases h0 : k0 = k
    · subst h0
      by_cases h1 : k0 = k'
      · subst h1; simp [CookieUtils.rawDelete, ih]
      · simp [CookieUtils.rawDelete, CookieUtils.rawGet, h1, ih]
    · by_cases h1 : k0 = k'
      · subst h1
        have hkk : ¬k = k0 := fun h => h0 h.symm
        simp [CookieUtils.rawDelete, CookieUtils.rawGet, h0, hkk, ih]
      · simp [CookieUtils.rawDelete, CookieUtils.rawGet, h0, h1, ih]

theorem rawGet_foldDelete (keys : List String) (st : Store) (k : String) :
    CookieUtils.rawGet (keys.foldl CookieUtils.rawDelete st) k =
      if k ∈ keys then none else CookieUtils.rawGet st k := by
  induction keys generalizing st with
  | nil => simp
  | cons k0 rest ih =>
    simp only [List.foldl_cons, ih, List.mem_cons]
    rw [rawGet_rawDelete]
    by_cases h0 : k = k0
    · subst h0; simp
    · by_cases h1 : k ∈ rest
      · simp [h0, h1]
      · simp [h0, h1, Ne.symm h0]

/-! ### Cookie-name disjointness -/

theorem slen (s : String) : s.length = s.data.length := rfl

theorem slen_append (a b : String) : (a ++ b).length = a.length + b.length := by
  rw [slen, slen, slen, sdata_append, List.length_append]

theorem str_append_cancel_left {a b c : String} (h : a ++ b = a ++ c) : b = c := by
  rw [sext, sdata_append, sdata_append] at h
  exact sext.mpr (List.append_cancel_left h)

theorem key_ne_of_get4 {s t : String} (h : s.data[4]? ≠ t.data[4]?) : s ≠ t :=
  fun he => h (by rw [sext.mp he])

theorem tokenKey_get4 (u : String) : (CookieUtils.tokenKey u).data[4]? = some 'T' := by
  rw [CookieUtils.tokenKey, sdata_append, List.getElem?_append_left (by decide)]
  decide

theorem dataKey_get4 (u : String) : (CookieUtils.dataKey u).data[4]? = some 'D' := by
  rw [CookieUtils.dataKey, sdata_append, List.getElem?_append_left (by decide)]
  decide

theorem avatarKey_get4 (u : String) : (CookieUtils.avatarKey u).data[4]? = some 'A' := by
  rw [CookieUtils.avatarKey, sdata_append, List.getElem?_append_left (by decide)]
  decide

theorem avatarChunksKey_get4 (u : String) :
    (CookieUtils.avatarChunksKey u).data[4]? = some 'A' := by
  rw [CookieUtils.avatarChunksKey, sdata_append,
      List.getElem?_append_left (by simp [sdata_append])]
  exact avatarKey_get4 u

theorem avatarChunkKey_get4 (u : String) (i : Nat) :
    (CookieUtils.avatarChunkKey u i).data[4]? = some 'A' := by
  rw [CookieUtils.avatarChunkKey, sdata_append,
      List.getElem?_append_left (by simp [sdata_append]),
      sdata_append, List.getElem?_append_left (by simp [sdata_append])]
  exact avatarKey_get4 u

theorem tokenKey_inj {u v : String} (h : CookieUtils.tokenKey u = CookieUtils.tokenKey v) :
    u = v := str_append_cancel_left h

theorem dataKey_inj {u v : String} (h : CookieUtils.dataKey u = CookieUtils.dataKey v) :
    u = v := str_append_cancel_left h

theorem toStringNat_len_one {i : Nat} (h : i < 10) : (toString i).length = 1 := by
  interval_cases i <;> decide

theorem avatarKey_ne_chunksKey (u : String) :
    CookieUtils.avatarKey u ≠ CookieUtils.avatarChunksKey u := by
  intro h
  have hl := congrArg String.length h
  rw [CookieUtils.avatarKey, CookieUtils.avatarChunksKey] at hl
  simp only [slen_append] at hl
  have h7 : ("_chunks" : String).length = 7 := rfl
  omega

theorem avatarKey_ne_chunkKey (u : String) (i : Nat) :
    CookieUtils.avatarKey u ≠ CookieUtils.avatarChunkKey u i := by
  intro h
  have hl := congrArg String.length h
  rw [CookieUtils.avatarKey, CookieUtils.avatarChunkKey] at hl
  simp only [slen_append] at hl
  have h7 : ("_chunk_" : String).length = 7 := rfl
  omega

theorem avatarChunksKey_ne_chunkKey (u : String) {i : Nat} (hi : i < 10) :
    CookieUtils.avatarChunksKey u ≠ CookieUtils.avatarChunkKey u i := by
  intro h
  have hl := congrArg String.length h
  rw [CookieUtils.avatarChunksKey, CookieUtils.avatarChunkKey] at hl
  simp only [slen_append] at hl
  have h7 : ("_chunks" : String).length = 7 := rfl
  have h7b : ("_chunk_" : String).length = 7 := rfl
  have h1 := toStringNat_len_one hi
  omega

theorem avatarChunkKey_inj10 {u : String} {i j : Nat} (hi : i < 10) (hj : j < 10)
    (h : CookieUtils.avatarChunkKey u i = CookieUtils.avatarChunkKey u j) : i = j := by
  rw [CookieUtils.avatarChunkKey, CookieUtils.avatarChunkKey] at h
  have h2 := str_append_cancel_left h
  interval_cases i <;> interval_cases j <;> first | rfl | exact absurd h2 (by decide)

theorem get4_congr {s t : String} (h : s = t) : s.data[4]? = t.data[4]? := by rw [h]

theorem deleteUserToken_as_foldDelete (st : Store) (u : String) :
    CookieUtils.deleteUserToken st u = (CookieUtils.delKeysList u).foldl CookieUtils.rawDelete st := by
  unfold CookieUtils.deleteUserToken CookieUtils.deleteUserAvatar CookieUtils.delKeysList
  rw [List.foldl_cons, List.foldl_cons, List.foldl_cons, List.foldl_map]

theorem rawGet_deleteUserToken (st : Store) (u : String) (k : String) :
    CookieUtils.rawGet (CookieUtils.deleteUserToken st u) k =
      if k ∈ CookieUtils.delKeysList u then none else CookieUtils.rawGet st k := by
  rw [deleteUserToken_as_foldDelete, rawGet_foldDelete]

theorem activeUser_not_mem_delKeys (u : String) :
    ("activeUser" : String) ∉ CookieUtils.delKeysList u := by
  intro hm
  simp only [CookieUtils.delKeysList, List.mem_cons, List.mem_map, List.mem_range] at hm
  rcases hm with h | h | h | ⟨i, hi, h⟩
  · have h4 := get4_congr h
    rw [tokenKey_get4] at h4
    exact absurd h4 (by decide)
  · have h4 := get4_congr h
    rw [dataKey_get4] at h4
    exact absurd h4 (by decide)
  · have h4 := get4_congr h
    rw [avatarKey_get4] at h4
    exact absurd h4 (by decide)
  · have h4 := get4_congr h.symm
    rw [avatarChunkKey_get4] at h4
    exact absurd h4 (by decide)

theorem lastUsers_not_mem_delKeys (u : String) :
    ("lastUsers" : String) ∉ CookieUtils.delKeysList u := by
  intro hm
  simp only [CookieUtils.delKeysList, List.mem_cons, List.mem_map, List.mem_range] at hm
  rcases hm with h | h | h | ⟨i, hi, h⟩
  · have h4 := get4_congr h
    rw [tokenKey_get4] at h4
    exact absurd h4 (by decide)
  · have h4 := get4_congr h
    rw [dataKey_get4] at h4
    exact absurd h4 (by decide)
  · have h4 := get4_congr h
    rw [avatarKey_get4] at h4
    exact absurd h4 (by decide)
  · have h4 := get4_congr h.symm
    rw [avatarChunkKey_get4] at h4
    exact absurd h4 (by decide)

theorem chunksKey_not_mem_delKeys (u : String) :
    CookieUtils.avatarChunksKey u ∉ CookieUtils.delKeysList u := by
  intro hm
  simp only [CookieUtils.delKeysList, List.mem_cons, List.mem_map, List.mem_range] at hm
  rcases hm with h | h | h | ⟨i, hi, h⟩
  · have h4 := get4_congr h
    rw [avatarChunksKey_get4, tokenKey_get4] at h4
    exact absurd h4 (by decide)
  · have h4 := get4_congr h
    rw [avatarChunksKey_get4, dataKey_get4] at h4
    exact absurd h4 (by decide)
  · exact absurd h.symm (avatarKey_ne_chunksKey u)
  · exact absurd h.symm (avatarChunksKey_ne_chunkKey u hi)

/-- C7 (amended): `deleteUserToken(u)` removes exactly the twelve cookies
`userToken_u`, `userData_u`, `userAvatar_u` and `userAvatar_u_chunk_0..9`;
every other cookie is untouched — in particular the chunk-count cookie
`userAvatar_u_chunks` survives, and the active pointer is NOT unset: after
the call `getActiveUser` returns exactly what it returned before, even when
the deleted username was active. -/
theorem deleteUserToken_frame (st : Store) (u : String) :
    (∀ k, CookieUtils.rawGet (CookieUtils.deleteUserToken st u) k =
        if k ∈ CookieUtils.delKeysList u then none else CookieUtils.rawGet st k) ∧
    (∀ k, k ∈ CookieUtils.delKeysList u →
        CookieUtils.rawGet (CookieUtils.deleteUserToken st u) k = none) ∧
    CookieUtils.getActiveUser (CookieUtils.deleteUserToken st u) =
      CookieUtils.getActiveUser st ∧
    CookieUtils.rawGet (CookieUtils.deleteUserToken st u) "lastUsers" =
      CookieUtils.rawGet st "lastUsers" ∧
    CookieUtils.rawGet (CookieUtils.deleteUserToken st u) (CookieUtils.avatarChunksKey u) =
      CookieUtils.rawGet st (CookieUtils.avatarChunksKey u) := by
  refine ⟨fun k => rawGet_deleteUserToken st u k, fun k hk => ?_, ?_, ?_, ?_⟩
  · rw [rawGet_deleteUserToken, if_pos hk]
  · unfold CookieUtils.getActiveUser
    rw [rawGet_deleteUserToken, if_neg (activeUser_not_mem_delKeys u)]
  · rw [rawGet_deleteUserToken, if_neg (lastUsers_not_mem_delKeys u)]
  · rw [rawGet_deleteUserToken, if_neg (chunksKey_not_mem_delKeys u)]

/-- C7 witness: the frame theorem applied at a concrete store and username. -/
theorem deleteUserToken_frame_witness :
    CookieUtils.rawGet
        (CookieUtils.deleteUserToken [(("userToken_a" : String), ("t" : String))] "a")
        "userToken_a" = none :=
  (deleteUserToken_frame [("userToken_a", "t")] "a").2.1 "userToken_a" (by decide)

/-- C7 counterexample (the claim as stated is false): with
`st7 = [activeUser ↦ a, userToken_a ↦ t, userAvatar_a_chunk_10 ↦ Z,
userAvatar_a_chunks ↦ 11, userAvatar_a_chunk_3 ↦ C]`, username `a` is active,
yet after `deleteUserToken(a)` (1) the active pointer still returns `a`,
(2) `a`'s avatar chunk 10 and its chunk-count cookie survive, and (3) the
cookie `userAvatar_a_chunk_3` — which is the base avatar cookie of the OTHER
username `a_chunk_3` — has been deleted. -/
theorem deleteUserToken_claim_counterexample :
    CookieUtils.getActiveUser
        [("activeUser", "a"), ("userToken_a", "t"), ("userAvatar_a_chunk_10", "Z"),
         ("userAvatar_a_chunks", "11"), ("userAvatar_a_chunk_3", "C")] = some "a" ∧
    CookieUtils.getActiveUser
        (CookieUtils.deleteUserToken
          [("activeUser", "a"), ("userToken_a", "t"), ("userAvatar_a_chunk_10", "Z"),
           ("userAvatar_a_chunks", "11"), ("userAvatar_a_chunk_3", "C")] "a") = some "a" ∧
    CookieUtils.rawGet
        (CookieUtils.deleteUserToken
          [("activeUser", "a"), ("userToken_a", "t"), ("userAvatar_a_chunk_10", "Z"),
           ("userAvatar_a_chunks", "11"), ("userAvatar_a_chunk_3", "C")] "a")
        "userAvatar_a_chunk_10" = some "Z" ∧
    CookieUtils.rawGet
        (CookieUtils.deleteUserToken
          [("activeUser", "a"), ("userToken_a", "t"), ("userAvatar_a_chunk_10", "Z"),
           ("userAvatar_a_chunks", "11"), ("userAvatar_a_chunk_3", "C")] "a")
        "userAvatar_a_chunks" = some "11" ∧
    CookieUtils.rawGet
        (CookieUtils.deleteUserToken
          [("activeUser", "a"), ("userToken_a", "t"), ("userAvatar_a_chunk_10", "Z"),
           ("userAvatar_a_chunks", "11"), ("userAvatar_a_chunk_3", "C")] "a")
        (CookieUtils.avatarKey "a_chunk_3") = none := by
  decide

theorem collectChunks_none_of_missing {st : Store} {u : String} {i : Nat} {is : List Nat}
    (hmem : i ∈ is)
    (hmiss : CookieUtils.rawGet st (CookieUtils.avatarChunkKey u i) = none) :
    CookieUtils.collectChunks st u is = none := by
  induction is with
  | nil => cases hmem
  | cons j rest ih =>
    simp only [CookieUtils.collectChunks]
    rcases List.mem_cons.mp hmem with h | h
    · subst h; rw [hmiss]
    · cases hj : CookieUtils.rawGet st (CookieUtils.avatarChunkKey u j) with
      | none => rfl
      | some c =>
        by_cases hc : c = ""
        · simp [hc]
        · simp [hc, ih h]

/-- C5: when the base avatar cookie holds the `chunked` marker and any chunk
with index below the parsed chunk count is absent, `getUserAvatar` returns
`null` — never a partial reconstruction. -/
theorem getUserAvatar_fail_closed (st : Store) (u : String) (n i : Nat)
    (hbase : CookieUtils.rawGet st (CookieUtils.avatarKey u) = some "chunked")
    (hcount : CookieUtils.jsParseInt
        ((CookieUtils.rawGet st (CookieUtils.avatarChunksKey u)).getD "0") = some n)
    (hi : i < n)
    (hmiss : CookieUtils.rawGet st (CookieUtils.avatarChunkKey u i) = none) :
    CookieUtils.getUserAvatar st u = none := by
  unfold CookieUtils.getUserAvatar
  rw [hbase]
  show (if ("chunked" : String) ≠ "" ∧ ("chunked" : String) ≠ "chunked" then
          some ("chunked" : String)
        else if ("chunked" : String) = "chunked" then CookieUtils.getAvatarChunks st u
        else none) = none
  rw [if_neg (by simp), if_pos rfl]
  have hchunks : CookieUtils.getAvatarChunks st u =
      match CookieUtils.jsParseInt
          ((CookieUtils.rawGet st (CookieUtils.avatarChunksKey u)).getD "0") with
      | none => some ""
      | some m => if m = 0 then none else CookieUtils.collectChunks st u (List.range m) := rfl
  rw [hchunks, hcount]
  show (if n = 0 then none else CookieUtils.collectChunks st u (List.range n)) = none
  rw [if_neg (by omega)]
  exact collectChunks_none_of_missing (List.mem_range.mpr hi) hmiss

/-- C5 witness: marker present, count 2, chunk 1 missing. -/
theorem getUserAvatar_fail_closed_witness :
    CookieUtils.getUserAvatar
      [("userAvatar_u", "chunked"), ("userAvatar_u_chunks", "2"),
       ("userAvatar_u_chunk_0", "x")] "u" = none :=
  getUserAvatar_fail_closed _ "u" 2 1 (by decide) (by decide) (by decide) (by decide)

/-- C10 (amended): `getUserAvatar` can only hand back the literal string
`"chunked"` through chunk reassembly (a stored base value `"chunked"` is
always interpreted as the marker, never returned); consequently storing the
7-character value `"chunked"` itself via `setUserAvatar` is not
round-trippable when no chunk-count cookie is present — the read returns
`null`.  (The original claim's "never returns \"chunked\" for any store
state" is refuted by the counterexample below, where the chunk entries
reassemble to exactly that string.) -/
theorem getUserAvatar_marker (st : Store) (u : String) :
    (CookieUtils.getUserAvatar st u = some "chunked" →
      CookieUtils.getAvatarChunks st u = some "chunked") ∧
    (CookieUtils.rawGet st (CookieUtils.avatarChunksKey u) = none →
      CookieUtils.getUserAvatar (CookieUtils.setUserAvatar st u "chunked") u = none) := by
  constructor
  · intro h
    unfold CookieUtils.getUserAvatar at h
    cases hb : CookieUtils.rawGet st (CookieUtils.avatarKey u) with
    | none => rw [hb] at h; exact absurd h (by simp)
    | some a =>
      rw [hb] at h
      replace h : (if a ≠ "" ∧ a ≠ "chunked" then some a
          else if a = "chunked" then CookieUtils.getAvatarChunks st u else none) =
          some "chunked" := h
      by_cases h1 : a ≠ "" ∧ a ≠ "chunked"
      · rw [if_pos h1] at h
        have : a = "chunked" := by injection h
        exact absurd this h1.2
      · rw [if_neg h1] at h
        by_cases h2 : a = "chunked"
        · rw [if_pos h2] at h; exact h
        · rw [if_neg h2] at h; exact absurd h (by simp)
  · intro hnone
    have hset : CookieUtils.setUserAvatar st u "chunked" =
        CookieUtils.rawSet st (CookieUtils.avatarKey u) "chunked" := by
      unfold CookieUtils.setUserAvatar
      rw [if_neg (by decide)]
    rw [hset]
    unfold CookieUtils.getUserAvatar
    rw [rawGet_rawSet, if_pos rfl]
    show (if ("chunked" : String) ≠ "" ∧ ("chunked" : String) ≠ "chunked" then
            some ("chunked" : String)
          else if ("chunked" : String) = "chunked" then
            CookieUtils.getAvatarChunks
              (CookieUtils.rawSet st (CookieUtils.avatarKey u) "chunked") u
          else none) = none
    rw [if_neg (by simp), if_pos rfl]
    unfold CookieUtils.getAvatarChunks
    have hc : CookieUtils.rawGet (CookieUtils.rawSet st (CookieUtils.avatarKey u) "chunked")
        (CookieUtils.avatarChunksKey u) = none := by
      rw [rawGet_rawSet, if_neg (avatarKey_ne_chunksKey u), hnone]
    rw [hc]
    rfl

/-- C10 witness: the amended theorem at the empty store. -/
theorem getUserAvatar_marker_witness :
    CookieUtils.getUserAvatar (CookieUtils.setUserAvatar [] "u" "chunked") "u" = none :=
  (getUserAvatar_marker [] "u").2 (by decide)

/-- C10 counterexample (to the claim as stated): a store whose chunk set
reassembles to the literal marker string makes `getUserAvatar` return
`"chunked"`. -/
theorem getUserAvatar_chunked_counterexample :
    CookieUtils.getUserAvatar
      [("userAvatar_u", "chunked"), ("userAvatar_u_chunks", "1"),
       ("userAvatar_u_chunk_0", "chunked")] "u" = some "chunked" := by
  decide

/-! ### C4: avatar storage round trip -/

theorem chunkSplit_cons {l : List Char} (h : l ≠ []) :
    CookieUtils.chunkSplit l = l.take 3000 :: CookieUtils.chunkSplit (l.drop 3000) := by
  conv_lhs => rw [CookieUtils.chunkSplit]
  rw [dif_neg h]

theorem chunkSplit_nil : CookieUtils.chunkSplit [] = [] := by
  conv_lhs => rw [CookieUtils.chunkSplit]
  rw [dif_pos rfl]

theorem smk_ne_empty {c : List Char} (h : c ≠ []) : String.mk c ≠ "" :=
  fun he => h (sext.mp he)

theorem setget_direct (st : Store) (u v : String) (hlen : v.length ≤ 3500)
    (hne : v ≠ "") (hnc : v ≠ "chunked") :
    CookieUtils.getUserAvatar (CookieUtils.setUserAvatar st u v) u = some v := by
  have hset : CookieUtils.setUserAvatar st u v =
      CookieUtils.rawSet st (CookieUtils.avatarKey u) v := by
    unfold CookieUtils.setUserAvatar
    rw [if_neg (by omega)]
  rw [hset]
  unfold CookieUtils.getUserAvatar
  rw [rawGet_rawSet, if_pos rfl]
  show (if v ≠ "" ∧ v ≠ "chunked" then some v
        else if v = "chunked" then
          CookieUtils.getAvatarChunks (CookieUtils.rawSet st (CookieUtils.avatarKey u) v) u
        else none) = some v
  rw [if_pos ⟨hne, hnc⟩]

theorem setget_empty (st : Store) (u : String) :
    CookieUtils.getUserAvatar (CookieUtils.setUserAvatar st u "") u = none := by
  have hset : CookieUtils.setUserAvatar st u "" =
      CookieUtils.rawSet st (CookieUtils.avatarKey u) "" := by
    unfold CookieUtils.setUserAvatar
    rw [if_neg (by decide)]
  rw [hset]
  unfold CookieUtils.getUserAvatar
  rw [rawGet_rawSet, if_pos rfl]
  show (if ("" : String) ≠ "" ∧ ("" : String) ≠ "chunked" then some ("" : String)
        else if ("" : String) = "chunked" then
          CookieUtils.getAvatarChunks (CookieUtils.rawSet st (CookieUtils.avatarKey u) "") u
        else none) = none
  rw [if_neg (by simp), if_neg (by simp)]

theorem getUserAvatar_of_marker {st : Store} {u : String}
    (hbase : CookieUtils.rawGet st (CookieUtils.avatarKey u) = some "chunked") :
    CookieUtils.getUserAvatar st u = CookieUtils.getAvatarChunks st u := by
  unfold CookieUtils.getUserAvatar
  rw [hbase]
  show (if ("chunked" : String) ≠ "" ∧ ("chunked" : String) ≠ "chunked" then
          some ("chunked" : String)
        else if ("chunked" : String) = "chunked" then CookieUtils.getAvatarChunks st u
        else none) = _
  rw [if_neg (by simp), if_pos rfl]

theorem getAvatarChunks_of_count6 {st : Store} {u : String}
    (hcount : CookieUtils.rawGet st (CookieUtils.avatarChunksKey u) = some (toString (6 : Nat))) :
    CookieUtils.getAvatarChunks st u = CookieUtils.collectChunks st u [0, 1, 2, 3, 4, 5] := by
  have hga : CookieUtils.getAvatarChunks st u =
      match CookieUtils.jsParseInt
          ((CookieUtils.rawGet st (CookieUtils.avatarChunksKey u)).getD "0") with
      | none => some ""
      | some m => if m = 0 then none else CookieUtils.collectChunks st u (List.range m) := rfl
  rw [hga, hcount]
  have hp : CookieUtils.jsParseInt ((some (toString (6 : Nat))).getD "0") = some 6 := by decide
  rw [hp]
  show (if (6 : Nat) = 0 then none else CookieUtils.collectChunks st u (List.range 6)) = _
  rw [if_neg (by decide), show List.range 6 = [0, 1, 2, 3, 4, 5] by decide]

theorem collectChunks_cons_read {st : Store} {u : String} {i : Nat} {is : List Nat} {c : String}
    (hc : CookieUtils.rawGet st (CookieUtils.avatarChunkKey u i) = some c) (hne : c ≠ "") :
    CookieUtils.collectChunks st u (i :: is) =
      (CookieUtils.collectChunks st u is).map (fun rest => c ++ rest) := by
  simp only [CookieUtils.collectChunks]
  rw [hc]
  show (if c = "" then none else (CookieUtils.collectChunks st u is).map (fun rest => c ++ rest)) = _
  rw [if_neg hne]

theorem collect6 (W : Store) (u : String) (c0 c1 c2 c3 c4 c5 : String)
    (h0 : CookieUtils.rawGet W (CookieUtils.avatarChunkKey u 0) = some c0) (n0 : c0 ≠ "")
    (h1 : CookieUtils.rawGet W (CookieUtils.avatarChunkKey u 1) = some c1) (n1 : c1 ≠ "")
    (h2 : CookieUtils.rawGet W (CookieUtils.avatarChunkKey u 2) = some c2) (n2 : c2 ≠ "")
    (h3 : CookieUtils.rawGet W (CookieUtils.avatarChunkKey u 3) = some c3) (n3 : c3 ≠ "")
    (h4 : CookieUtils.rawGet W (CookieUtils.avatarChunkKey u 4) = some c4) (n4 : c4 ≠ "")
    (h5 : CookieUtils.rawGet W (CookieUtils.avatarChunkKey u 5) = some c5) (n5 : c5 ≠ "") :
    CookieUtils.collectChunks W u [0, 1, 2, 3, 4, 5] =
      some (c0 ++ (c1 ++ (c2 ++ (c3 ++ (c4 ++ (c5 ++ "")))))) := by
  rw [collectChunks_cons_read h0 n0, collectChunks_cons_read h1 n1,
      collectChunks_cons_read h2 n2, collectChunks_cons_read h3 n3,
      collectChunks_cons_read h4 n4, collectChunks_cons_read h5 n5]
  rfl

theorem setget_chunked (st : Store) (u v : String) (hv : v.length = 15037) :
    CookieUtils.getUserAvatar (CookieUtils.setUserAvatar st u v) u = some v := by
  have hl : v.data.length = 15037 := hv
  have hd0 : v.data ≠ [] := by
    intro h; rw [h] at hl; simp at hl
  have hd1 : (v.data.drop 3000) ≠ [] := by
    intro h
    have := congrArg List.length h
    rw [List.length_drop, hl] at this
    simp at this
  have hd2 : ((v.data.drop 3000).drop 3000) ≠ [] := by
    intro h
    have := congrArg List.length h
    rw [List.length_drop, List.length_drop, hl] at this
    simp at this
  have hd3 : (((v.data.drop 3000).drop 3000).drop 3000) ≠ [] := by
    intro h
    have := congrArg List.length h
    rw [List.length_drop, List.length_drop, List.length_drop, hl] at this
    simp at this
  have hd4 : ((((v.data.drop 3000).drop 3000).drop 3000).drop 3000) ≠ [] := by
    intro h
    have := congrArg List.length h
    rw [List.length_drop, List.length_drop, List.length_drop, List.length_drop, hl] at this
    simp at this
  have hd5 : (((((v.data.drop 3000).drop 3000).drop 3000).drop 3000).drop 3000) ≠ [] := by
    intro h
    have := congrArg List.length h
    rw [List.length_drop, List.length_drop, List.length_drop, List.length_drop,
        List.length_drop, hl] at this
    simp at this
  have hd6 : ((((((v.data.drop 3000).drop 3000).drop 3000).drop 3000).drop 3000).drop 3000)
      = [] := by
    apply List.eq_nil_of_length_eq_zero
    simp [List.length_drop, hl]
  have hs : CookieUtils.chunkSplit v.data =
      [v.data.take 3000,
       (v.data.drop 3000).take 3000,
       ((v.data.drop 3000).drop 3000).take 3000,
       (((v.data.drop 3000).drop 3000).drop 3000).take 3000,
       ((((v.data.drop 3000).drop 3000).drop 3000).drop 3000).take 3000,
       (((((v.data.drop 3000).drop 3000).drop 3000).drop 3000).drop 3000).take 3000] := by
    rw [chunkSplit_cons hd0, chunkSplit_cons hd1, chunkSplit_cons hd2, chunkSplit_cons hd3,
        chunkSplit_cons hd4, chunkSplit_cons hd5, hd6, chunkSplit_nil]
  have hsplit : CookieUtils.setUserAvatar st u v = CookieUtils.setAvatarChunks st u v := by
    unfold CookieUtils.setUserAvatar
    rw [if_pos (by omega)]
  have hchunks : CookieUtils.setAvatarChunks st u v =
      CookieUtils.writeChunks u
        (CookieUtils.rawSet (CookieUtils.rawSet st (CookieUtils.avatarKey u) "chunked")
          (CookieUtils.avatarChunksKey u)
          (toString ((CookieUtils.chunkSplit v.data).map String.mk).length))
        0 ((CookieUtils.chunkSplit v.data).map String.mk) := rfl
  have nAC : ∀ i : Nat, CookieUtils.avatarChunkKey u i ≠ CookieUtils.avatarKey u :=
    fun i => (avatarKey_ne_chunkKey u i).symm
  have nCC : CookieUtils.avatarChunksKey u ≠ CookieUtils.avatarKey u :=
    (avatarKey_ne_chunksKey u).symm
  have nACc : ∀ i : Nat, i < 10 →
      CookieUtils.avatarChunkKey u i ≠ CookieUtils.avatarChunksKey u :=
    fun i hi => (avatarChunksKey_ne_chunkKey u hi).symm
  have nCCc : ∀ i : Nat, i < 10 →
      CookieUtils.avatarChunksKey u ≠ CookieUtils.avatarChunkKey u i :=
    fun i hi => avatarChunksKey_ne_chunkKey u hi
  have nij : ∀ i j : Nat, i < 10 → j < 10 → i ≠ j →
      CookieUtils.avatarChunkKey u i ≠ CookieUtils.avatarChunkKey u j :=
    fun i j hi hj hne h => hne (avatarChunkKey_inj10 hi hj h)
  have hW : CookieUtils.setUserAvatar st u v =
      CookieUtils.rawSet
        (CookieUtils.rawSet
          (CookieUtils.rawSet
            (CookieUtils.rawSet
              (CookieUtils.rawSet
                (CookieUtils.rawSet
                  (CookieUtils.rawSet
                    (CookieUtils.rawSet st (CookieUtils.avatarKey u) "chunked")
                    (CookieUtils.avatarChunksKey u) (toString (6 : Nat)))
                  (CookieUtils.avatarChunkKey u 0) (String.mk (v.data.take 3000)))
                (CookieUtils.avatarChunkKey u 1) (String.mk ((v.data.drop 3000).take 3000)))
              (CookieUtils.avatarChunkKey u 2) (String.mk ((v.data.drop 6000).take 3000)))
            (CookieUtils.avatarChunkKey u 3) (String.mk ((v.data.drop 9000).take 3000)))
          (CookieUtils.avatarChunkKey u 4) (String.mk ((v.data.drop 12000).take 3000)))
        (CookieUtils.avatarChunkKey u 5) (String.mk ((v.data.drop 15000).take 3000)) := by
    rw [hsplit, hchunks, hs]
    simp only [List.map_cons, List.map_nil, List.length_cons, List.length_nil]
    simp only [CookieUtils.writeChunks]
    norm_num
  rw [hW]
  refine Eq.trans (getUserAvatar_of_marker ?_) ?_
  · simp only [rawGet_rawSet]
    simp [nAC, nCC]
  refine Eq.trans (getAvatarChunks_of_count6 ?_) ?_
  · simp only [rawGet_rawSet]
    simp [nACc, nCCc]
  refine Eq.trans
    (collect6 _ u (String.mk (v.data.take 3000)) (String.mk ((v.data.drop 3000).take 3000))
      (String.mk ((v.data.drop 6000).take 3000)) (String.mk ((v.data.drop 9000).take 3000))
      (String.mk ((v.data.drop 12000).take 3000)) (String.mk ((v.data.drop 15000).take 3000))
      ?_ ?_ ?_ ?_ ?_ ?_ ?_ ?_ ?_ ?_ ?_ ?_) ?_
  · simp only [rawGet_rawSet]
    simp [nij, nCCc, nAC]
  · apply smk_ne_empty
    intro h
    have hlen := congrArg List.length h
    simp only [List.length_take, List.length_drop, List.length_nil, hl] at hlen
    omega
  · simp only [rawGet_rawSet]
    simp [nij, nCCc, nAC]
  · apply smk_ne_empty
    intro h
    have hlen := congrArg List.length h
    simp only [List.length_take, List.length_drop, List.length_nil, hl] at hlen
    omega
  · simp only [rawGet_rawSet]
    simp [nij, nCCc, nAC]
  · apply smk_ne_empty
    intro h
    have hlen := congrArg List.length h
    simp only [List.length_take, List.length_drop, List.length_nil, hl] at hlen
    omega
  · simp only [rawGet_rawSet]
    simp [nij, nCCc, nAC]
  · apply smk_ne_empty
    intro h
    have hlen := congrArg List.length h
    simp only [List.length_take, List.length_drop, List.length_nil, hl] at hlen
    omega
  · simp only [rawGet_rawSet]
    simp [nij, nCCc, nAC]
  · apply smk_ne_empty
    intro h
    have hlen := congrArg List.length h
    simp only [List.length_take, List.length_drop, List.length_nil, hl] at hlen
    omega
  · simp only [rawGet_rawSet]
    simp [nij, nCCc, nAC]
  · apply smk_ne_empty
    intro h
    have hlen := congrArg List.length h
    simp only [List.length_take, List.length_drop, List.length_nil, hl] at hlen
    omega
  refine congrArg some ?_
  rw [sext]
  simp only [sdata_append, smk_data, show ("" : String).data = [] from rfl, List.append_nil]
  have ht5 : (v.data.drop 15000).take 3000 = v.data.drop 15000 :=
    List.take_of_length_le (by rw [List.length_drop, hl]; omega)
  rw [ht5]
  have e4 : (v.data.drop 12000).take 3000 ++ v.data.drop 15000 = v.data.drop 12000 := by
    have h := List.drop_take_append_drop v.data 12000 3000
    rw [show (12000 + 3000 : Nat) = 15000 from rfl] at h
    exact h
  rw [e4]
  have e3 : (v.data.drop 9000).take 3000 ++ v.data.drop 12000 = v.data.drop 9000 := by
    have h := List.drop_take_append_drop v.data 9000 3000
    rw [show (9000 + 3000 : Nat) = 12000 from rfl] at h
    exact h
  rw [e3]
  have e2 : (v.data.drop 6000).take 3000 ++ v.data.drop 9000 = v.data.drop 6000 := by
    have h := List.drop_take_append_drop v.data 6000 3000
    rw [show (6000 + 3000 : Nat) = 9000 from rfl] at h
    exact h
  rw [e2]
  have e1 : (v.data.drop 3000).take 3000 ++ v.data.drop 6000 = v.data.drop 3000 := by
    have h := List.drop_take_append_drop v.data 3000 3000
    rw [show (3000 + 3000 : Nat) = 6000 from rfl] at h
    exact h
  rw [e1]
  exact List.take_append_drop 3000 v.data

/-- C4 (amended): the avatar round trip is exact for values of length
`chunkThreshold - 1` (3499), exactly `chunkThreshold` (3500, stored directly)
and `5 * chunkSize + 37` (15037, split into six chunks and reassembled in
index order) — but NOT for the empty value: a stored empty string is falsy on
read, so `getUserAvatar` returns `null` rather than `""`. -/
theorem setUserAvatar_roundtrip_amended (st : Store) (u v : String) :
    ((v.length = 3499 ∨ v.length = 3500) →
      CookieUtils.getUserAvatar (CookieUtils.setUserAvatar st u v) u = some v) ∧
    (v.length = 15037 →
      CookieUtils.getUserAvatar (CookieUtils.setUserAvatar st u v) u = some v) ∧
    (v = "" → CookieUtils.getUserAvatar (CookieUtils.setUserAvatar st u v) u = none) := by
  refine ⟨fun hlen => ?_, fun hlen => setget_chunked st u v hlen, fun hv => ?_⟩
  · have hle : v.length ≤ 3500 := by rcases hlen with h | h <;> omega
    have hne : v ≠ "" := by
      intro h
      rw [h] at hlen
      rcases hlen with h' | h' <;> exact absurd h' (by decide)
    have hnc : v ≠ "chunked" := by
      intro h
      rw [h] at hlen
      rcases hlen with h' | h' <;> exact absurd h' (by decide)
    exact setget_direct st u v hle hne hnc
  · rw [hv]
    exact setget_empty st u

/-- C4 witness: a 3499-character value round-trips through the store. -/
theorem setUserAvatar_roundtrip_amended_witness :
    CookieUtils.getUserAvatar
        (CookieUtils.setUserAvatar [] "u" (String.mk (List.replicate 3499 'x'))) "u" =
      some (String.mk (List.replicate 3499 'x')) :=
  (setUserAvatar_roundtrip_amended [] "u" (String.mk (List.replicate 3499 'x'))).1
    (Or.inl (by rw [slen, smk_data, List.length_replicate]))

/-- C4 counterexample (the claim as stated includes length 0): storing the
empty string and reading it back yields `null`, not the empty string. -/
theorem setUserAvatar_empty_counterexample :
    CookieUtils.getUserAvatar (CookieUtils.setUserAvatar [] "u" "") "u" = none ∧
    CookieUtils.getUserAvatar (CookieUtils.setUserAvatar [] "u" "") "u" ≠ some "" := by
  decide

/-! ### C8: roster maintenance -/

theorem smk_eta (s : String) : String.mk s.data = s := by cases s; rfl

theorem parseQuotedBody_cons (c : Char) (rest : List Char) :
    CookieUtils.parseQuotedBody (c :: rest) =
      if c = '\\' then
        match rest with
        | [] => none
        | c2 :: rest2 => (CookieUtils.parseQuotedBody rest2).map (fun p => (c2 :: p.1, p.2))
      else if c = '"' then some ([], rest)
      else (CookieUtils.parseQuotedBody rest).map (fun p => (c :: p.1, p.2)) := by
  conv_lhs => unfold CookieUtils.parseQuotedBody

theorem parseQuoted_esc (s rest : List Char) :
    CookieUtils.parseQuotedBody (CookieUtils.escChars s ++ '"' :: rest) = some (s, rest) := by
  induction s with
  | nil =>
    simp only [CookieUtils.escChars, List.nil_append]
    rw [parseQuotedBody_cons, if_neg (by decide), if_pos rfl]
  | cons c cs ih =>
    by_cases hc : c = '"' ∨ c = '\\'
    · simp only [CookieUtils.escChars, if_pos hc, List.cons_append]
      rw [parseQuotedBody_cons, if_pos rfl]
      show (CookieUtils.parseQuotedBody (CookieUtils.escChars cs ++ '"' :: rest)).map
          (fun p => (c :: p.1, p.2)) = some (c :: cs, rest)
      rw [ih]
      rfl
    · simp only [CookieUtils.escChars, if_neg hc, List.cons_append]
      push_neg at hc
      rw [parseQuotedBody_cons, if_neg hc.2, if_neg hc.1, ih]
      rfl

theorem parse_jsonItems (l : List String) :
    ∀ fuel : Nat, l.length < fuel →
      CookieUtils.parseItemsFuel fuel (CookieUtils.jsonItems l) = some l := by
  induction l with
  | nil =>
    intro fuel hf
    cases fuel with
    | zero => omega
    | succ f => simp [CookieUtils.jsonItems, CookieUtils.parseItemsFuel]
  | cons s ss ih =>
    intro fuel hf
    cases fuel with
    | zero => omega
    | succ f =>
      cases ss with
      | nil =>
        show CookieUtils.parseItemsFuel (f + 1)
            ('"' :: (CookieUtils.escChars s.data ++ ['"', ']'])) = some [s]
        simp only [CookieUtils.parseItemsFuel]
        rw [show (CookieUtils.escChars s.data ++ ['"', ']'] : List Char) =
              CookieUtils.escChars s.data ++ '"' :: [']'] from rfl,
            parseQuoted_esc]
        simp [smk_eta]
      | cons s2 ss2 =>
        show CookieUtils.parseItemsFuel (f + 1)
            ('"' :: (CookieUtils.escChars s.data ++ ['"', ','] ++
              CookieUtils.jsonItems (s2 :: ss2))) = some (s :: s2 :: ss2)
        simp only [CookieUtils.parseItemsFuel]
        rw [List.append_assoc,
            show (['"', ','] ++ CookieUtils.jsonItems (s2 :: ss2) : List Char) =
              '"' :: ',' :: CookieUtils.jsonItems (s2 :: ss2) from rfl,
            parseQuoted_esc]
        have hss : (s2 :: ss2).length < f := by
          simp only [List.length_cons] at hf ⊢
          omega
        simp [ih f hss, smk_eta]

theorem jsonItems_length_ge (l : List String) : l.length ≤ (CookieUtils.jsonItems l).length := by
  induction l with
  | nil => simp [CookieUtils.jsonItems]
  | cons s ss ih =>
    cases ss with
    | nil => simp [CookieUtils.jsonItems]
    | cons s2 ss2 =>
      show (s :: s2 :: ss2).length ≤
        ('"' :: (CookieUtils.escChars s.data ++ ['"', ','] ++
          CookieUtils.jsonItems (s2 :: ss2))).length
      simp only [List.length_cons, List.length_append] at ih ⊢
      omega

theorem jsonRoundtrip (l : List String) :
    CookieUtils.jsonParseStrings (CookieUtils.jsonEncodeStrings l) = some l := by
  show CookieUtils.jsonParseStrings (String.mk ('[' :: CookieUtils.jsonItems l)) = some l
  unfold CookieUtils.jsonParseStrings
  rw [smk_data]
  exact parse_jsonItems l _ (by have := jsonItems_length_ge l; omega)

theorem jsonEncode_ne_empty (l : List String) : CookieUtils.jsonEncodeStrings l ≠ "" :=
  smk_ne_empty (by simp)

/-- C8: `updateLastUsers(u)` rewrites the roster to `take 2 (u :: roster \ u)`
(most-recently-used first, capped at 2) and touches no other cookie — in
particular no stored account entry; the concrete sequence `a, b, c` from an
empty roster yields `[c, b]`, with `a`'s account data still retrievable via
`getUserData`. -/
theorem updateLastUsers_spec :
    (∀ (st : Store) (u : String),
        CookieUtils.getLastUsers (CookieUtils.updateLastUsers st u) =
          (u :: (CookieUtils.getLastUsers st).filter (fun user => user ≠ u)).take 2) ∧
    (∀ (st : Store) (u k : String), k ≠ "lastUsers" →
        CookieUtils.rawGet (CookieUtils.updateLastUsers st u) k = CookieUtils.rawGet st k) ∧
    CookieUtils.getLastUsers
        (CookieUtils.updateLastUsers
          (CookieUtils.updateLastUsers
            (CookieUtils.updateLastUsers [("userData_a", "D")] "a") "b") "c") = ["c", "b"] ∧
    CookieUtils.getUserData
        (CookieUtils.updateLastUsers
          (CookieUtils.updateLastUsers
            (CookieUtils.updateLastUsers [("userData_a", "D")] "a") "b") "c") "a" =
      some ⟨"D", none⟩ := by
  have hupd : ∀ (st : Store) (u : String),
      CookieUtils.updateLastUsers st u =
        CookieUtils.rawSet st "lastUsers"
          (CookieUtils.jsonEncodeStrings
            ((u :: (CookieUtils.getLastUsers st).filter (fun user => user ≠ u)).take 2)) :=
    fun st u => rfl
  have hg : ∀ (st : Store) (e : String),
      CookieUtils.getLastUsers (CookieUtils.rawSet st "lastUsers" e) =
        if e = "" then [] else (CookieUtils.jsonParseStrings e).getD [] := by
    intro st e
    unfold CookieUtils.getLastUsers
    rw [rawGet_rawSet, if_pos rfl]
  refine ⟨fun st u => ?_, fun st u k hk => ?_, by decide, by decide⟩
  · rw [hupd, hg, if_neg (jsonEncode_ne_empty _), jsonRoundtrip]
    rfl
  · rw [hupd, rawGet_rawSet, if_neg (fun h => hk h.symm)]

/-- C8 witness: the frame part applied at a concrete store, username and key. -/
theorem updateLastUsers_spec_witness :
    CookieUtils.rawGet (CookieUtils.updateLastUsers [("userData_a", "D")] "a") "userData_a" =
      CookieUtils.rawGet [("userData_a", "D")] "userData_a" :=
  updateLastUsers_spec.2.1 [("userData_a", "D")] "a" "userData_a" (by decide)

/-! ### C6: batch validation -/

theorem batchStep_eq (f : String → String → Except String Bool)
    (acc : Store × List CookieUtils.ValidationResult) (e : CookieUtils.TokenEntry) :
    CookieUtils.batchStep f acc e =
      (CookieUtils.storeStep f acc.1 e, acc.2 ++ [CookieUtils.expectedResult f e]) := by
  unfold CookieUtils.batchStep CookieUtils.storeStep CookieUtils.expectedResult
  cases hf : f e.username e.token with
  | ok b => cases b <;> simp
  | error m => simp

theorem batch_foldl (f : String → String → Except String Bool)
    (L : List CookieUtils.TokenEntry) :
    ∀ (st : Store) (rs : List CookieUtils.ValidationResult),
      L.foldl (CookieUtils.batchStep f) (st, rs) =
        (L.foldl (CookieUtils.storeStep f) st, rs ++ L.map (CookieUtils.expectedResult f)) := by
  induction L with
  | nil => intro st rs; simp
  | cons e L ih =>
    intro st rs
    rw [List.foldl_cons, batchStep_eq, List.foldl_cons, List.map_cons]
    rw [ih]
    simp

theorem batchValidateTokens_eq (st : Store) (f : String → String → Except String Bool) :
    CookieUtils.batchValidateTokens st f =
      ((CookieUtils.getAllUserTokens st).foldl (CookieUtils.storeStep f) st,
       (CookieUtils.getAllUserTokens st).map (CookieUtils.expectedResult f)) := by
  unfold CookieUtils.batchValidateTokens
  rw [batch_foldl]
  simp

theorem storeStep_eq_ite (f : String → String → Except String Bool) (st : Store)
    (e : CookieUtils.TokenEntry) :
    CookieUtils.storeStep f st e =
      if CookieUtils.isFailed f e = true then CookieUtils.deleteUserToken st e.username
      else st := by
  unfold CookieUtils.storeStep CookieUtils.isFailed
  cases f e.username e.token with
  | ok b => cases b <;> simp
  | error m => simp

theorem rawGet_storeStep_foldl (f : String → String → Except String Bool)
    (L : List CookieUtils.TokenEntry) :
    ∀ (st : Store) (k : String),
      CookieUtils.rawGet (L.foldl (CookieUtils.storeStep f) st) k =
        if ∃ e ∈ L, CookieUtils.isFailed f e = true ∧ k ∈ CookieUtils.delKeysList e.username
        then none else CookieUtils.rawGet st k := by
  induction L with
  | nil => intro st k; simp
  | cons e L ih =>
    intro st k
    rw [List.foldl_cons, ih, storeStep_eq_ite]
    by_cases hrest : ∃ e' ∈ L,
        CookieUtils.isFailed f e' = true ∧ k ∈ CookieUtils.delKeysList e'.username
    · rw [if_pos hrest, if_pos (by
        obtain ⟨e', he', hp⟩ := hrest
        exact ⟨e', List.mem_cons_of_mem e he', hp⟩)]
    · rw [if_neg hrest]
      by_cases hf : CookieUtils.isFailed f e = true
      · rw [if_pos hf, rawGet_deleteUserToken]
        by_cases hk : k ∈ CookieUtils.delKeysList e.username
        · rw [if_pos hk, if_pos ⟨e, List.mem_cons_self e L, hf, hk⟩]
        · rw [if_neg hk, if_neg (by
            intro hcons
            obtain ⟨e', he', hfe', hke'⟩ := hcons
            rcases List.mem_cons.mp he' with heq | hmem
            · subst heq; exact hk hke'
            · exact hrest ⟨e', hmem, hfe', hke'⟩)]
      · rw [if_neg hf, if_neg (by
          intro hcons
          obtain ⟨e', he', hfe', hke'⟩ := hcons
          rcases List.mem_cons.mp he' with heq | hmem
          · subst heq; exact hf hfe'
          · exact hrest ⟨e', hmem, hfe', hke'⟩)]

theorem rawGet_mem {st : Store} {k v : String} (h : CookieUtils.rawGet st k = some v) :
    (k, v) ∈ st := by
  induction st with
  | nil => simp [CookieUtils.rawGet] at h
  | cons kv rest ih =>
    obtain ⟨k0, v0⟩ := kv
    by_cases h0 : k0 = k
    · subst h0
      rw [CookieUtils.rawGet, if_pos rfl] at h
      injection h with h
      subst h
      exact List.mem_cons_self _ _
    · rw [CookieUtils.rawGet, if_neg h0] at h
      exact List.mem_cons_of_mem _ (ih h)

theorem isPrefixOf_append (l m : List Char) : l.isPrefixOf (l ++ m) = true := by
  induction l with
  | nil => simp [List.isPrefixOf]
  | cons c cs ih => simp [List.isPrefixOf, ih]

theorem jsStartsWith_tokenKey (u : String) :
    jsStartsWith (CookieUtils.tokenKey u) "userToken_" = true := by
  unfold jsStartsWith CookieUtils.tokenKey
  rw [sdata_append]
  exact isPrefixOf_append _ _

theorem tokenKeyUser_tokenKey (u : String) :
    CookieUtils.tokenKeyUser (CookieUtils.tokenKey u) = u := by
  unfold CookieUtils.tokenKeyUser CookieUtils.tokenKey
  rw [sdata_append]
  show String.mk ((['u', 's', 'e', 'r', 'T', 'o', 'k', 'e', 'n', '_'] ++ u.data).drop 10) = u
  simp only [List.drop_succ_cons, List.cons_append, List.drop_zero, List.drop_nil,
             List.nil_append]

theorem getUserData_some_iff {st : Store} {u : String} :
    (∃ d, CookieUtils.getUserData st u = some d) ↔
      (∃ s, CookieUtils.rawGet st (CookieUtils.dataKey u) = some s ∧ s ≠ "") := by
  unfold CookieUtils.getUserData
  cases hr : CookieUtils.rawGet st (CookieUtils.dataKey u) with
  | none => simp
  | some s =>
    by_cases hs : s = ""
    · subst hs; simp
    · simp [hs]

theorem mem_getAllUserTokens {st : Store} {e : CookieUtils.TokenEntry}
    (he : e ∈ CookieUtils.getAllUserTokens st) :
    CookieUtils.getUserToken st e.username = some e.token ∧ e.token ≠ "" ∧
    CookieUtils.getUserData st e.username = some e.userData := by
  unfold CookieUtils.getAllUserTokens at he
  rw [List.mem_filterMap] at he
  obtain ⟨kv, hkv, hf⟩ := he
  by_cases hstart : jsStartsWith kv.1 "userToken_" = true
  · rw [if_pos hstart] at hf
    replace hf : (match CookieUtils.getUserToken st (CookieUtils.tokenKeyUser kv.1),
        CookieUtils.getUserData st (CookieUtils.tokenKeyUser kv.1) with
      | some t, some d => if t = "" then none
          else some (⟨CookieUtils.tokenKeyUser kv.1, t, d⟩ : CookieUtils.TokenEntry)
      | some _, none => none
      | none, _ => none) = some e := hf
    cases ht : CookieUtils.getUserToken st (CookieUtils.tokenKeyUser kv.1) with
    | none =>
      rw [ht] at hf
      cases hd : CookieUtils.getUserData st (CookieUtils.tokenKeyUser kv.1) <;>
        rw [hd] at hf <;> exact absurd hf (by simp)
    | some t =>
      rw [ht] at hf
      cases hd : CookieUtils.getUserData st (CookieUtils.tokenKeyUser kv.1) with
      | none =>
        rw [hd] at hf
        exact absurd hf (by simp)
      | some d =>
        rw [hd] at hf
        replace hf : (if t = "" then none
            else some (⟨CookieUtils.tokenKeyUser kv.1, t, d⟩ : CookieUtils.TokenEntry)) =
            some e := hf
        by_cases htne : t = ""
        · rw [if_pos htne] at hf
          exact absurd hf (by simp)
        · rw [if_neg htne] at hf
          have he2 : (⟨CookieUtils.tokenKeyUser kv.1, t, d⟩ : CookieUtils.TokenEntry) = e := by
            injection hf
          subst he2
          exact ⟨ht, htne, hd⟩
  · rw [if_neg hstart] at hf
    exact absurd hf (by simp)

theorem getAllUserTokens_complete {st : Store} {u t : String} {d : CookieUtils.UserDataObj}
    (ht : CookieUtils.rawGet st (CookieUtils.tokenKey u) = some t) (htne : t ≠ "")
    (hd : CookieUtils.getUserData st u = some d) :
    (⟨u, t, d⟩ : CookieUtils.TokenEntry) ∈ CookieUtils.getAllUserTokens st := by
  unfold CookieUtils.getAllUserTokens
  rw [List.mem_filterMap]
  refine ⟨(CookieUtils.tokenKey u, t), rawGet_mem ht, ?_⟩
  rw [if_pos (jsStartsWith_tokenKey u)]
  show (match CookieUtils.getUserToken st (CookieUtils.tokenKeyUser (CookieUtils.tokenKey u)),
          CookieUtils.getUserData st (CookieUtils.tokenKeyUser (CookieUtils.tokenKey u)) with
        | some t, some d =>
          if t = "" then none
          else some (⟨CookieUtils.tokenKeyUser (CookieUtils.tokenKey u), t, d⟩ :
            CookieUtils.TokenEntry)
        | some _, none => none
        | none, _ => none) = some ⟨u, t, d⟩
  rw [tokenKeyUser_tokenKey]
  have hgt : CookieUtils.getUserToken st u = some t := ht
  rw [hgt, hd]
  show (if t = "" then none else some (⟨u, t, d⟩ : CookieUtils.TokenEntry)) = some ⟨u, t, d⟩
  rw [if_neg htne]

theorem tokenKey_mem_delKeys_iff {v w : String} :
    CookieUtils.tokenKey v ∈ CookieUtils.delKeysList w ↔ v = w := by
  constructor
  · intro hm
    simp only [CookieUtils.delKeysList, List.mem_cons, List.mem_map, List.mem_range] at hm
    rcases hm with h | h | h | ⟨i, hi, h⟩
    · exact tokenKey_inj h
    · have h4 := get4_congr h
      rw [tokenKey_get4, dataKey_get4] at h4
      exact absurd h4 (by decide)
    · have h4 := get4_congr h
      rw [tokenKey_get4, avatarKey_get4] at h4
      exact absurd h4 (by decide)
    · have h4 := get4_congr h.symm
      rw [tokenKey_get4, avatarChunkKey_get4] at h4
      exact absurd h4 (by decide)
  · intro h; subst h; exact List.mem_cons_self _ _

theorem dataKey_mem_delKeys_iff {v w : String} :
    CookieUtils.dataKey v ∈ CookieUtils.delKeysList w ↔ v = w := by
  constructor
  · intro hm
    simp only [CookieUtils.delKeysList, List.mem_cons, List.mem_map, List.mem_range] at hm
    rcases hm with h | h | h | ⟨i, hi, h⟩
    · have h4 := get4_congr h
      rw [dataKey_get4, tokenKey_get4] at h4
      exact absurd h4 (by decide)
    · exact dataKey_inj h
    · have h4 := get4_congr h
      rw [dataKey_get4, avatarKey_get4] at h4
      exact absurd h4 (by decide)
    · have h4 := get4_congr h.symm
      rw [dataKey_get4, avatarChunkKey_get4] at h4
      exact absurd h4 (by decide)
  · intro h
    subst h
    exact List.mem_cons_of_mem _ (List.mem_cons_self _ _)

theorem isFailed_congr (f : String → String → Except String Bool)
    {e1 e2 : CookieUtils.TokenEntry} (hu : e1.username = e2.username)
    (ht : e1.token = e2.token) : CookieUtils.isFailed f e1 = CookieUtils.isFailed f e2 := by
  unfold CookieUtils.isFailed
  rw [hu, ht]

/-- C6 (amended): `batchValidateTokens` processes exactly the accounts with a
truthy token cookie and a truthy data cookie, sequentially in enumeration
order; the returned list has one entry per processed account with the outcome
dictated by the validator (`isValid` true plus the account data for success;
`isValid` false with `null` data, carrying the thrown message for an error);
the final store removes, for every failed account, exactly its twelve
deletion keys (token, data, base avatar, chunks 0–9 — the chunk-count cookie
and chunks ≥ 10 survive) and leaves every other cookie unchanged; valid
accounts' token and data cookies are always left untouched (their avatar
cookies may be hit only by a failed account's colliding key family, see the
counterexample). -/
theorem batchValidateTokens_spec (st : Store) (f : String → String → Except String Bool) :
    (CookieUtils.batchValidateTokens st f).2 =
      (CookieUtils.getAllUserTokens st).map (CookieUtils.expectedResult f) ∧
    (∀ u : String,
      (∃ e ∈ CookieUtils.getAllUserTokens st, e.username = u) ↔
        ((∃ t, CookieUtils.rawGet st (CookieUtils.tokenKey u) = some t ∧ t ≠ "") ∧
         (∃ s, CookieUtils.rawGet st (CookieUtils.dataKey u) = some s ∧ s ≠ ""))) ∧
    (∀ k : String,
      CookieUtils.rawGet (CookieUtils.batchValidateTokens st f).1 k =
        if ∃ e ∈ CookieUtils.getAllUserTokens st,
            CookieUtils.isFailed f e = true ∧ k ∈ CookieUtils.delKeysList e.username
        then none else CookieUtils.rawGet st k) ∧
    (∀ e ∈ CookieUtils.getAllUserTokens st, CookieUtils.isFailed f e = false →
      CookieUtils.rawGet (CookieUtils.batchValidateTokens st f).1
          (CookieUtils.tokenKey e.username) =
        CookieUtils.rawGet st (CookieUtils.tokenKey e.username) ∧
      CookieUtils.rawGet (CookieUtils.batchValidateTokens st f).1
          (CookieUtils.dataKey e.username) =
        CookieUtils.rawGet st (CookieUtils.dataKey e.username)) ∧
    (∀ e ∈ CookieUtils.getAllUserTokens st, CookieUtils.isFailed f e = true →
      CookieUtils.rawGet (CookieUtils.batchValidateTokens st f).1
          (CookieUtils.tokenKey e.username) = none ∧
      CookieUtils.rawGet (CookieUtils.batchValidateTokens st f).1
          (CookieUtils.dataKey e.username) = none ∧
      CookieUtils.rawGet (CookieUtils.batchValidateTokens st f).1
          (CookieUtils.avatarKey e.username) = none) := by
  have heq := batchValidateTokens_eq st f
  have hframe : ∀ k : String,
      CookieUtils.rawGet (CookieUtils.batchValidateTokens st f).1 k =
        if ∃ e ∈ CookieUtils.getAllUserTokens st,
            CookieUtils.isFailed f e = true ∧ k ∈ CookieUtils.delKeysList e.username
        then none else CookieUtils.rawGet st k := by
    intro k
    rw [heq]
    exact rawGet_storeStep_foldl f _ st k
  have husr : ∀ e1 e2 : CookieUtils.TokenEntry, e1 ∈ CookieUtils.getAllUserTokens st →
      e2 ∈ CookieUtils.getAllUserTokens st → e1.username = e2.username →
      CookieUtils.isFailed f e1 = CookieUtils.isFailed f e2 := by
    intro e1 e2 h1 h2 hu
    have k1 := (mem_getAllUserTokens h1).1
    have k2 := (mem_getAllUserTokens h2).1
    rw [hu, k2] at k1
    injection k1 with k1
    exact isFailed_congr f hu k1.symm
  refine ⟨by rw [heq], fun u => ⟨?_, ?_⟩, hframe, fun e he hfe => ⟨?_, ?_⟩,
    fun e he hfe => ⟨?_, ?_, ?_⟩⟩
  · intro hmem
    obtain ⟨e, he, heu⟩ := hmem
    have hm := mem_getAllUserTokens he
    subst heu
    refine ⟨⟨e.token, hm.1, hm.2.1⟩, ?_⟩
    exact getUserData_some_iff.mp ⟨e.userData, hm.2.2⟩
  · intro hmem
    obtain ⟨⟨t, ht, htne⟩, hdata⟩ := hmem
    obtain ⟨d, hd⟩ := getUserData_some_iff.mpr hdata
    exact ⟨⟨u, t, d⟩, getAllUserTokens_complete ht htne hd, rfl⟩
  · rw [hframe]
    rw [if_neg (by
      intro hcond
      obtain ⟨e', he', hfe', hke'⟩ := hcond
      have hequ := tokenKey_mem_delKeys_iff.mp hke'
      rw [husr e e' he he' hequ, hfe'] at hfe
      exact absurd hfe (by decide))]
  · rw [hframe]
    rw [if_neg (by
      intro hcond
      obtain ⟨e', he', hfe', hke'⟩ := hcond
      have hequ := dataKey_mem_delKeys_iff.mp hke'
      rw [husr e e' he he' hequ, hfe'] at hfe
      exact absurd hfe (by decide))]
  · rw [hframe, if_pos ⟨e, he, hfe, List.mem_cons_self _ _⟩]
  · rw [hframe,
      if_pos ⟨e, he, hfe, List.mem_cons_of_mem _ (List.mem_cons_self _ _)⟩]
  · rw [hframe,
      if_pos ⟨e, he, hfe,
        List.mem_cons_of_mem _ (List.mem_cons_of_mem _ (List.mem_cons_self _ _))⟩]

/-- C6 witness: the valid-account frame part at a concrete one-account store
with an always-true validator. -/
theorem batchValidateTokens_spec_witness :
    CookieUtils.rawGet
        (CookieUtils.batchValidateTokens [("userToken_x", "t"), ("userData_x", "d")]
          (fun _ _ => (Except.ok true : Except String Bool))).1
        (CookieUtils.tokenKey "x") =
      CookieUtils.rawGet [("userToken_x", "t"), ("userData_x", "d")]
        (CookieUtils.tokenKey "x") :=
  ((batchValidateTokens_spec [("userToken_x", "t"), ("userData_x", "d")]
      (fun _ _ => (Except.ok true : Except String Bool))).2.2.2.1
    ⟨"x", "t", ⟨"d", none⟩⟩ (by decide) (by decide)).1

/-- C6 counterexample (to the claim as stated): over the store
`[userToken_bad ↦ t1, userData_bad ↦ d1, userToken_bad_chunk_3 ↦ t2,
userData_bad_chunk_3 ↦ d2, userAvatar_bad_chunk_3 ↦ AV,
userAvatar_bad_chunk_10 ↦ Z]` with the validator `u ↦ u ≠ "bad"`:
`bad_chunk_3` is a valid account, yet after the batch (1) failed account
`bad`'s avatar chunk cookie `userAvatar_bad_chunk_10` is NOT deleted, and
(2) valid account `bad_chunk_3`'s stored avatar cookie
`userAvatar_bad_chunk_3` (same cookie as `bad`'s chunk 3) IS deleted. -/
theorem batchValidateTokens_claim_counterexample :
    ((fun (u : String) (_ : String) =>
        (Except.ok (decide ¬(u = "bad")) : Except String Bool)) "bad_chunk_3" "t2" =
      Except.ok true) ∧
    CookieUtils.rawGet
        [("userToken_bad", "t1"), ("userData_bad", "d1"),
         ("userToken_bad_chunk_3", "t2"), ("userData_bad_chunk_3", "d2"),
         ("userAvatar_bad_chunk_3", "AV"), ("userAvatar_bad_chunk_10", "Z")]
        "userAvatar_bad_chunk_3" = some "AV" ∧
    CookieUtils.rawGet
        (CookieUtils.batchValidateTokens
          [("userToken_bad", "t1"), ("userData_bad", "d1"),
           ("userToken_bad_chunk_3", "t2"), ("userData_bad_chunk_3", "d2"),
           ("userAvatar_bad_chunk_3", "AV"), ("userAvatar_bad_chunk_10", "Z")]
          (fun u _ => (Except.ok (decide ¬(u = "bad")) : Except String Bool))).1
        "userAvatar_bad_chunk_10" = some "Z" ∧
    CookieUtils.rawGet
        (CookieUtils.batchValidateTokens
          [("userToken_bad", "t1"), ("userData_bad", "d1"),
           ("userToken_bad_chunk_3", "t2"), ("userData_bad_chunk_3", "d2"),
           ("userAvatar_bad_chunk_3", "AV"), ("userAvatar_bad_chunk_10", "Z")]
          (fun u _ => (Except.ok (decide ¬(u = "bad")) : Except String Bool))).1
        "userAvatar_bad_chunk_3" = none ∧
    (CookieUtils.batchValidateTokens
        [("userToken_bad", "t1"), ("userData_bad", "d1"),
         ("userToken_bad_chunk_3", "t2"), ("userData_bad_chunk_3", "d2"),
         ("userAvatar_bad_chunk_3", "AV"), ("userAvatar_bad_chunk_10", "Z")]
        (fun u _ => (Except.ok (decide ¬(u = "bad")) : Except String Bool))).2 =
      [⟨"bad", false, none, none⟩,
       ⟨"bad_chunk_3", true, some ⟨"d2", some "AV"⟩, none⟩] := by
  refine ⟨rfl, ?_⟩
  decide
